import Mathlib

/-!
# Verification of `firebase-messaging-sw.js`

A shallow embedding of the service worker in
`src/main/resources/static/firebase-messaging-sw.js`: its two listeners
(`message` and `push`) become functions from the worker state and an event to
an `Outcome` listing every external call made, the next state, and the
exception (if any) that leaves the listener.

The collaborators the script only calls (`firebase.initializeApp`,
`firebase.messaging`, `self.registration.showNotification`) are a parameter,
`Host`, whose calls may return or throw and may depend on hidden host state.
-/

namespace FirebaseMessagingSw

/-! ## JavaScript values -/

/-- Values the worker reads from events: what `JSON.parse` can produce, plus
`undefined` (the value of an absent property). `num` stands for a finite
number; the script only ever tests a number for being zero. `obj` lists each
own property of a plain object once. -/
inductive JSVal where
  | undefined
  | null
  | bool (b : Bool)
  | num (n : Int)
  | str (s : String)
  | arr (items : List JSVal)
  | obj (fields : List (String × JSVal))

/-- What a `throw` carries. `typeError` is raised by the language itself when
a property is read from `null` or `undefined`; every other exception comes
from the parser or from a host call and is told apart by its tag. -/
inductive Thrown where
  | typeError
  | other (tag : String)
  deriving DecidableEq, Repr

/-- The object `firebase.messaging()` returns (always truthy). -/
structure Handle where
  id : Nat
  deriving DecidableEq, Repr

/-- The promise `self.registration.showNotification(..)` returns. -/
structure Promise where
  id : Nat
  deriving DecidableEq, Repr

/-- JavaScript `ToBoolean`. -/
def truthy : JSVal → Bool
  | .undefined => false
  | .null => false
  | .bool b => b
  | .num n => n != 0
  | .str s => s != ""
  | .arr _ => true
  | .obj _ => true

/-- Whether a value is `null` or `undefined`. -/
def nullish : JSVal → Bool
  | .undefined => true
  | .null => true
  | _ => false

/-- The value stored under `key` in a value: the property when the value is a
plain object that has it, `undefined` otherwise. None of the names the script
reads (`type`, `config`, `notification`, `title`, `body`, `icon`, `data`) is
inherited from a built-in prototype, so primitives and arrays yield
`undefined`. -/
def field : JSVal → String → JSVal
  | .obj fs, key => (fs.lookup key).getD .undefined
  | _, _ => .undefined

/-- Property read `v.key`: a `TypeError` on `null` and `undefined`. -/
def getProp (v : JSVal) (key : String) : Except Thrown JSVal :=
  if nullish v then .error .typeError else .ok (field v key)

/-- Optional chaining `v?.key`: `undefined` when `v` is `null` or `undefined`,
otherwise the property read. -/
def optChain (v : JSVal) (key : String) : Except Thrown JSVal :=
  if nullish v then .ok .undefined else getProp v key

/-- The operator `a || b`. -/
def orElse (a b : JSVal) : JSVal :=
  if truthy a then a else b

/-- The comparison `v === s` against a string literal `s`. -/
def strictEqStr : JSVal → String → Bool
  | .str t, s => t == s
  | _, _ => false

/-! ## Events, host and effects -/

/-- The object literal passed as second argument of `showNotification`. -/
structure NotificationOptions where
  body : JSVal
  icon : JSVal
  data : JSVal

/-- A `message` event: `data` is whatever the page posted. -/
structure MessageEvent where
  data : JSVal

/-- The `data` of a push event that has one; `json` is what the call
`event.data.json()` does: return the parsed value or throw. -/
structure PushMessageData where
  json : Except Thrown JSVal

/-- A `push` event; `data` is `none` when the event carries no payload
(`event.data` is `null`). -/
structure PushEvent where
  data : Option PushMessageData

/-- The external calls of the script. Each takes the host's hidden state and
returns the result of the call (a value, or the exception thrown) with the
host's next state. -/
structure Host (σ : Type) where
  initializeApp : JSVal → σ → Except Thrown Unit × σ
  messaging : σ → Except Thrown Handle × σ
  showNotification : JSVal → NotificationOptions → σ → Except Thrown Promise × σ

/-- One external call made by a listener, with its arguments and, for the host
calls that may throw, how the call ended. `event.waitUntil` and `console.error`
return normally: the listener runs while its event is being dispatched, which
is when `waitUntil` accepts a promise. -/
inductive Effect where
  | initializeApp (config : JSVal) (result : Except Thrown Unit)
  | messaging (result : Except Thrown Handle)
  | showNotification (title : JSVal) (options : NotificationOptions)
      (result : Except Thrown Promise)
  | waitUntil (p : Promise)
  | consoleError (message : String) (error : Thrown)

/-- The worker: the module variable `messagingInstance` (`none` is `null`) and
the state of the host. -/
structure Worker (σ : Type) where
  messagingInstance : Option Handle
  env : σ

/-- What running a listener on one event does. -/
structure Outcome (σ : Type) where
  worker : Worker σ
  effects : List Effect
  escaped : Option Thrown

/-- The literal `'INIT_FIREBASE_MESSAGING'`. -/
def initTag : String := "INIT_FIREBASE_MESSAGING"

/-- The literal `'새 알림'`. -/
def fallbackTitle : String := "새 알림"

/-- The literal `'푸시 메시지 처리 중 오류'`. -/
def pushErrorMessage : String := "푸시 메시지 처리 중 오류"

/-! ## The `message` listener (lines 6-18) -/

/-- Lines 16-17: `firebase.initializeApp(data.config); messagingInstance =
firebase.messaging();`, run with `messagingInstance` still `null`. -/
def construct {σ : Type} (H : Host σ) (env : σ) (config : JSVal) : Outcome σ :=
  match H.initializeApp config env with
  | (.error e, env1) =>
    { worker := ⟨none, env1⟩, effects := [.initializeApp config (.error e)],
      escaped := some e }
  | (.ok u, env1) =>
    match H.messaging env1 with
    | (.error e, env2) =>
      { worker := ⟨none, env2⟩,
        effects := [.initializeApp config (.ok u), .messaging (.error e)],
        escaped := some e }
    | (.ok h, env2) =>
      { worker := ⟨some h, env2⟩,
        effects := [.initializeApp config (.ok u), .messaging (.ok h)],
        escaped := none }

/-- The listener registered for `message`. -/
def onMessage {σ : Type} (H : Host σ) (w : Worker σ) (event : MessageEvent) : Outcome σ :=
  let data := event.data
  if !truthy data then ⟨w, [], none⟩
  else
    match getProp data "type" with
    | .error e => ⟨w, [], some e⟩
    | .ok ty =>
      if !strictEqStr ty initTag then ⟨w, [], none⟩
      else if w.messagingInstance.isSome then ⟨w, [], none⟩
      else
        match getProp data "config" with
        | .error e => ⟨w, [], some e⟩
        | .ok config => construct H w.env config

/-! ## The `push` listener (lines 20-38) -/

/-- Lines 27-32: the title and the options computed from the parsed payload. -/
def deriveNotification (payload : JSVal) : Except Thrown (JSVal × NotificationOptions) := do
  let n1 ← getProp payload "notification"
  let t ← optChain n1 "title"
  let title := orElse t (.str fallbackTitle)
  let n2 ← getProp payload "notification"
  let b ← optChain n2 "body"
  let n3 ← getProp payload "notification"
  let i ← optChain n3 "icon"
  let d ← getProp payload "data"
  pure (title, { body := orElse b (.str ""), icon := i, data := d })

/-- Lines 26-34, the body of the `try`: the calls made, the host's next state,
and the exception that ends the block early, if any. -/
def pushTry {σ : Type} (H : Host σ) (env : σ) (d : PushMessageData) :
    List Effect × σ × Option Thrown :=
  match d.json with
  | .error e => ([], env, some e)
  | .ok payload =>
    match deriveNotification payload with
    | .error e => ([], env, some e)
    | .ok (title, options) =>
      match H.showNotification title options env with
      | (.error e, env1) => ([.showNotification title options (.error e)], env1, some e)
      | (.ok p, env1) =>
        ([.showNotification title options (.ok p), .waitUntil p], env1, none)

/-- The listener registered for `push`. -/
def onPush {σ : Type} (H : Host σ) (w : Worker σ) (event : PushEvent) : Outcome σ :=
  match event.data with
  | none => ⟨w, [], none⟩
  | some d =>
    match pushTry H w.env d with
    | (effs, env1, none) => ⟨{ w with env := env1 }, effs, none⟩
    | (effs, env1, some e) =>
      ⟨{ w with env := env1 }, effs ++ [.consoleError pushErrorMessage e], none⟩

/-! ## Sequences of events -/

/-- An event delivered to the worker. -/
inductive Event where
  | message (e : MessageEvent)
  | push (e : PushEvent)

/-- The host runs the listener registered for the event's type. -/
def dispatch {σ : Type} (H : Host σ) (w : Worker σ) : Event → Outcome σ
  | .message e => onMessage H w e
  | .push e => onPush H w e

/-- What a sequence of events leaves behind: the final worker, every call made
and the exceptions that left a listener (the host reports them and goes on
delivering events). -/
structure Run (σ : Type) where
  worker : Worker σ
  effects : List Effect
  uncaught : List Thrown

/-- Events are delivered one at a time, each to the state the previous left. -/
def run {σ : Type} (H : Host σ) (w : Worker σ) : List Event → Run σ
  | [] => ⟨w, [], []⟩
  | ev :: rest =>
    let o := dispatch H w ev
    let r := run H o.worker rest
    ⟨r.worker, o.effects ++ r.effects, o.escaped.toList ++ r.uncaught⟩

/-- A worker right after the script was evaluated (line 4). -/
def fresh {σ : Type} (env : σ) : Worker σ := ⟨none, env⟩

/-! ## Observations on the calls made -/

/-- The display calls made: title and options of each `showNotification`. -/
def requested : List Effect → List (JSVal × NotificationOptions)
  | [] => []
  | .showNotification t o _ :: rest => (t, o) :: requested rest
  | _ :: rest => requested rest

/-- The display calls that returned, i.e. the notifications shown. -/
def shown : List Effect → List (JSVal × NotificationOptions)
  | [] => []
  | .showNotification t o (.ok _) :: rest => (t, o) :: shown rest
  | _ :: rest => shown rest

/-- The arguments of the calls to `event.waitUntil`. -/
def waited : List Effect → List Promise
  | [] => []
  | .waitUntil p :: rest => p :: waited rest
  | _ :: rest => waited rest

/-- The entries written with `console.error`. -/
def logged : List Effect → List (String × Thrown)
  | [] => []
  | .consoleError m e :: rest => (m, e) :: logged rest
  | _ :: rest => logged rest

/-- The handles obtained: one per call of `firebase.messaging()` that
returned, which the script only makes right after `firebase.initializeApp`
returned. -/
def constructed : List Effect → List Handle
  | [] => []
  | .messaging (.ok h) :: rest => h :: constructed rest
  | _ :: rest => constructed rest

/-- The calls made to the messaging library, `firebase.initializeApp` or
`firebase.messaging`, whether they returned or threw. -/
def libraryCalls : List Effect → Nat
  | [] => 0
  | .initializeApp _ _ :: rest => libraryCalls rest + 1
  | .messaging _ :: rest => libraryCalls rest + 1
  | _ :: rest => libraryCalls rest

/-- The message `{ type: 'INIT_FIREBASE_MESSAGING', config }`. -/
def initMessage (config : JSVal) : MessageEvent :=
  ⟨.obj [("type", .str initTag), ("config", config)]⟩

/-- A push event whose payload parses to `payload`. -/
def pushOf (payload : JSVal) : PushEvent :=
  ⟨some ⟨.ok payload⟩⟩

/-- Whether a value is a plain object with an own property `key`. -/
def hasField : JSVal → String → Bool
  | .obj fs, key => (fs.lookup key).isSome
  | _, _ => false

/-! ## The descriptor in the words of the specification -/

/-- The title as the specification words it: `notification.title`, replaced by
the fixed fallback string when it is not there (or is falsy). -/
def specTitle (payload : JSVal) : JSVal :=
  orElse (field (field payload "notification") "title") (.str fallbackTitle)

/-- The options as the specification words them: `body` from
`notification.body` with the empty string as default, `icon` from
`notification.icon`, `data` passed through. -/
def specOptions (payload : JSVal) : NotificationOptions :=
  { body := orElse (field (field payload "notification") "body") (.str ""),
    icon := field (field payload "notification") "icon",
    data := field payload "data" }

/-- The payload `{"notification":{"title":"Hi","body":"there"},"data":{"k":"v"}}`. -/
def hiPayload : JSVal :=
  .obj [("notification", .obj [("title", .str "Hi"), ("body", .str "there")]),
        ("data", .obj [("k", .str "v")])]

/-- The payload `{"notification":{"title":"","body":"B"}}`. -/
def emptyTitlePayload : JSVal :=
  .obj [("notification", .obj [("title", .str ""), ("body", .str "B")])]

/-- The payload `{"data":{"k":"v"}}`. -/
def dataOnlyPayload : JSVal :=
  .obj [("data", .obj [("k", .str "v")])]

/-- The configuration `{ apiKey: "x" }`. -/
def sampleConfig : JSVal :=
  .obj [("apiKey", .str "x")]

/-! ## Sample hosts -/

/-- A host on which every call returns; its state numbers the handles and
promises it hands out. -/
def steadyHost : Host Nat where
  initializeApp := fun _ n => (.ok (), n)
  messaging := fun n => (.ok ⟨n⟩, n + 1)
  showNotification := fun _ _ n => (.ok ⟨n⟩, n + 1)

/-- A host on which `firebase.messaging()` throws (the configuration lacks a
required value) and `showNotification` throws. -/
def brokenHost : Host Nat where
  initializeApp := fun _ n => (.ok (), n)
  messaging := fun n => (.error (.other "messaging/missing-app-config-values"), n)
  showNotification := fun _ _ n => (.error (.other "display"), n)

/-! ## Basic facts about values -/

theorem field_of_nullish {v : JSVal} (h : nullish v = true) (key : String) :
    field v key = .undefined := by
  cases v <;> simp_all [nullish, field]

theorem nullish_of_field_ne {v : JSVal} {key : String} (h : field v key ≠ .undefined) :
    nullish v = false := by
  cases v <;> simp_all [nullish, field]

theorem field_undefined (key : String) : field .undefined key = .undefined := rfl

theorem field_of_not_hasField {v : JSVal} {key : String} (h : hasField v key = false) :
    field v key = .undefined := by
  cases v with
  | obj fs =>
    simp only [hasField] at h
    simp only [field]
    cases hl : List.lookup key fs with
    | none => rfl
    | some x => simp [hl] at h
  | _ => rfl

theorem optChain_eq (v : JSVal) (key : String) : optChain v key = .ok (field v key) := by
  unfold optChain getProp
  by_cases h : nullish v = true
  · simp [h, field_of_nullish h]
  · simp [h]

theorem strictEqStr_iff (v : JSVal) (s : String) : strictEqStr v s = true ↔ v = .str s := by
  cases v <;> simp [strictEqStr]

theorem orElse_str (s : String) (b : JSVal) (h : s ≠ "") : orElse (.str s) b = .str s := by
  simp [orElse, truthy, h]

theorem orElse_str_empty (s : String) : orElse (.str s) (.str "") = .str s := by
  by_cases h : s = ""
  · simp [orElse, truthy, h]
  · simp [orElse, truthy, h]

theorem orElse_undefined (b : JSVal) : orElse .undefined b = b := by
  simp [orElse, truthy]

/-! ## The push listener, path by path -/

theorem deriveNotification_eq {payload : JSVal} (h : nullish payload = false) :
    deriveNotification payload = .ok (specTitle payload, specOptions payload) := by
  simp [deriveNotification, getProp, h, optChain_eq, specTitle, specOptions, bind, Except.bind,
    pure, Except.pure]

theorem deriveNotification_nullish {payload : JSVal} (h : nullish payload = true) :
    deriveNotification payload = .error .typeError := by
  simp [deriveNotification, getProp, h, bind, Except.bind]

theorem onPush_returned {σ : Type} (H : Host σ) (w : Worker σ) {payload : JSVal}
    {t : JSVal} {o : NotificationOptions} (hd : deriveNotification payload = .ok (t, o))
    {p : Promise} {env1 : σ} (hs : H.showNotification t o w.env = (.ok p, env1)) :
    onPush H w (pushOf payload) =
      ⟨⟨w.messagingInstance, env1⟩, [.showNotification t o (.ok p), .waitUntil p], none⟩ := by
  simp [onPush, pushOf, pushTry, hd, hs]

theorem onPush_display_threw {σ : Type} (H : Host σ) (w : Worker σ) {payload : JSVal}
    {t : JSVal} {o : NotificationOptions} (hd : deriveNotification payload = .ok (t, o))
    {e : Thrown} {env1 : σ} (hs : H.showNotification t o w.env = (.error e, env1)) :
    onPush H w (pushOf payload) =
      ⟨⟨w.messagingInstance, env1⟩,
        [.showNotification t o (.error e), .consoleError pushErrorMessage e], none⟩ := by
  simp [onPush, pushOf, pushTry, hd, hs]

theorem onPush_derive_threw {σ : Type} (H : Host σ) (w : Worker σ) {payload : JSVal}
    {e : Thrown} (hd : deriveNotification payload = .error e) :
    onPush H w (pushOf payload) = ⟨w, [.consoleError pushErrorMessage e], none⟩ := by
  simp [onPush, pushOf, pushTry, hd]

theorem onPush_parse_threw {σ : Type} (H : Host σ) (w : Worker σ) (e : Thrown) :
    onPush H w ⟨some ⟨.error e⟩⟩ = ⟨w, [.consoleError pushErrorMessage e], none⟩ := by
  simp [onPush, pushTry]

theorem onPush_no_data {σ : Type} (H : Host σ) (w : Worker σ) :
    onPush H w ⟨none⟩ = ⟨w, [], none⟩ := by
  simp [onPush]

theorem requested_onPush {σ : Type} (H : Host σ) (w : Worker σ) {payload : JSVal}
    {t : JSVal} {o : NotificationOptions} (hd : deriveNotification payload = .ok (t, o)) :
    requested (onPush H w (pushOf payload)).effects = [(t, o)] := by
  rcases hs : H.showNotification t o w.env with ⟨r, env1⟩
  cases r with
  | error e => simp [onPush_display_threw H w hd hs, requested]
  | ok p => simp [onPush_returned H w hd hs, requested]

theorem shown_onPush {σ : Type} (H : Host σ) (w : Worker σ) {payload : JSVal}
    {t : JSVal} {o : NotificationOptions} (hd : deriveNotification payload = .ok (t, o))
    {p : Promise} {env1 : σ} (hs : H.showNotification t o w.env = (.ok p, env1)) :
    shown (onPush H w (pushOf payload)).effects = [(t, o)] := by
  simp [onPush_returned H w hd hs, shown]

theorem pushEvent_eq_pushOf {event : PushEvent} {d : PushMessageData} {payload : JSVal}
    (h1 : event.data = some d) (h2 : d.json = .ok payload) : event = pushOf payload := by
  cases event with
  | mk data =>
    cases d with
    | mk json => simp_all [pushOf]

theorem waited_onPush_only {σ : Type} (H : Host σ) (w : Worker σ) (event : PushEvent)
    (h : waited (onPush H w event).effects ≠ []) :
    ∃ payload t o p env1, event = pushOf payload ∧ deriveNotification payload = .ok (t, o) ∧
      H.showNotification t o w.env = (.ok p, env1) ∧
      waited (onPush H w event).effects = [p] := by
  cases event with
  | mk data =>
    cases data with
    | none => simp [onPush_no_data, waited] at h
    | some d =>
      cases d with
      | mk json =>
        cases json with
        | error e => simp [onPush_parse_threw, waited] at h
        | ok payload =>
          cases hd : deriveNotification payload with
          | error e =>
            have := onPush_derive_threw H w hd
            simp only [pushOf] at this
            simp [this, waited] at h
          | ok pair =>
            obtain ⟨t, o⟩ := pair
            rcases hs : H.showNotification t o w.env with ⟨r, env1⟩
            cases r with
            | error e =>
              have := onPush_display_threw H w hd hs
              simp only [pushOf] at this
              simp [this, waited] at h
            | ok p =>
              have := onPush_returned H w hd hs
              simp only [pushOf] at this
              exact ⟨payload, t, o, p, env1, rfl, hd, hs, by simp [this, waited]⟩

theorem onPush_cases {σ : Type} (H : Host σ) (w : Worker σ) (event : PushEvent) :
    ∃ env1 effs, onPush H w event = ⟨⟨w.messagingInstance, env1⟩, effs, none⟩ ∧
      constructed effs = [] ∧ libraryCalls effs = 0 := by
  cases event with
  | mk data =>
    cases data with
    | none => exact ⟨w.env, [], by simp [onPush_no_data], rfl, rfl⟩
    | some d =>
      cases d with
      | mk json =>
        cases json with
        | error e =>
          exact ⟨w.env, [.consoleError pushErrorMessage e], by simp [onPush_parse_threw],
            rfl, rfl⟩
        | ok payload =>
          cases hd : deriveNotification payload with
          | error e =>
            have := onPush_derive_threw H w hd
            simp only [pushOf] at this
            exact ⟨w.env, [.consoleError pushErrorMessage e], by simp [this], rfl, rfl⟩
          | ok pair =>
            obtain ⟨t, o⟩ := pair
            rcases hs : H.showNotification t o w.env with ⟨r, env1⟩
            cases r with
            | error e =>
              have := onPush_display_threw H w hd hs
              simp only [pushOf] at this
              exact ⟨env1, _, this, rfl, rfl⟩
            | ok p =>
              have := onPush_returned H w hd hs
              simp only [pushOf] at this
              exact ⟨env1, _, this, rfl, rfl⟩

/-! ## The message listener, path by path -/

theorem nullish_of_truthy {v : JSVal} (h : truthy v = true) : nullish v = false := by
  cases v <;> simp_all [truthy, nullish]

theorem truthy_of_field_str {v : JSVal} {key s : String} (h : field v key = .str s) :
    truthy v = true := by
  cases v <;> simp_all [truthy, field]

theorem onMessage_ignored {σ : Type} (H : Host σ) (w : Worker σ) {data : JSVal}
    (h : field data "type" ≠ .str initTag) :
    onMessage H w ⟨data⟩ = ⟨w, [], none⟩ := by
  have hs : strictEqStr (field data "type") initTag = false := by
    cases hb : strictEqStr (field data "type") initTag with
    | false => rfl
    | true => exact absurd ((strictEqStr_iff _ _).mp hb) h
  by_cases ht : truthy data = true
  · simp [onMessage, ht, getProp, nullish_of_truthy ht, hs]
  · simp [onMessage, ht]

theorem onMessage_already {σ : Type} (H : Host σ) (w : Worker σ) (event : MessageEvent)
    {h : Handle} (hw : w.messagingInstance = some h) :
    onMessage H w event = ⟨w, [], none⟩ := by
  cases event with
  | mk data =>
    by_cases ht : truthy data = true
    · by_cases hs : strictEqStr (field data "type") initTag = true
      · simp [onMessage, ht, getProp, nullish_of_truthy ht, hs, hw]
      · simp [onMessage, ht, getProp, nullish_of_truthy ht, hs]
    · simp [onMessage, ht]

theorem onMessage_init {σ : Type} (H : Host σ) (w : Worker σ) {data : JSVal}
    (h : field data "type" = .str initTag) (hw : w.messagingInstance = none) :
    onMessage H w ⟨data⟩ = construct H w.env (field data "config") := by
  have ht := truthy_of_field_str h
  simp [onMessage, ht, getProp, nullish_of_truthy ht, h, strictEqStr, hw]

theorem construct_init_threw {σ : Type} (H : Host σ) {env env1 : σ} (config : JSVal)
    {e : Thrown} (h1 : H.initializeApp config env = (.error e, env1)) :
    construct H env config =
      ⟨⟨none, env1⟩, [.initializeApp config (.error e)], some e⟩ := by
  simp [construct, h1]

theorem construct_messaging_threw {σ : Type} (H : Host σ) {env env1 env2 : σ} (config : JSVal)
    {u : Unit} {e : Thrown} (h1 : H.initializeApp config env = (.ok u, env1))
    (h2 : H.messaging env1 = (.error e, env2)) :
    construct H env config =
      ⟨⟨none, env2⟩, [.initializeApp config (.ok u), .messaging (.error e)], some e⟩ := by
  simp [construct, h1, h2]

theorem construct_returned {σ : Type} (H : Host σ) {env env1 env2 : σ} (config : JSVal)
    {u : Unit} {h : Handle} (h1 : H.initializeApp config env = (.ok u, env1))
    (h2 : H.messaging env1 = (.ok h, env2)) :
    construct H env config =
      ⟨⟨some h, env2⟩, [.initializeApp config (.ok u), .messaging (.ok h)], none⟩ := by
  simp [construct, h1, h2]

theorem construct_cases {σ : Type} (H : Host σ) (env : σ) (config : JSVal) :
    (∃ env1, (construct H env config).worker = ⟨none, env1⟩ ∧
        constructed (construct H env config).effects = [] ∧
        (∃ e, (construct H env config).escaped = some e)) ∨
    (∃ h env1, (construct H env config).worker = ⟨some h, env1⟩ ∧
        constructed (construct H env config).effects = [h] ∧
        (construct H env config).escaped = none) := by
  rcases h1 : H.initializeApp config env with ⟨r1, env1⟩
  cases r1 with
  | error e =>
    rw [construct_init_threw H config h1]
    exact Or.inl ⟨env1, rfl, rfl, e, rfl⟩
  | ok u =>
    rcases h2 : H.messaging env1 with ⟨r2, env2⟩
    cases r2 with
    | error e =>
      rw [construct_messaging_threw H config h1 h2]
      exact Or.inl ⟨env2, rfl, rfl, e, rfl⟩
    | ok h =>
      rw [construct_returned H config h1 h2]
      exact Or.inr ⟨h, env2, rfl, rfl, rfl⟩

theorem construct_of_no_escape {σ : Type} (H : Host σ) (env : σ) (config : JSVal)
    (hesc : (construct H env config).escaped = none) :
    ∃ h env2, construct H env config =
      ⟨⟨some h, env2⟩, [.initializeApp config (.ok ()), .messaging (.ok h)], none⟩ := by
  rcases h1 : H.initializeApp config env with ⟨r1, env1⟩
  cases r1 with
  | error e =>
    rw [construct_init_threw H config h1] at hesc
    exact absurd hesc (by simp)
  | ok u =>
    rcases h2 : H.messaging env1 with ⟨r2, env2⟩
    cases r2 with
    | error e =>
      rw [construct_messaging_threw H config h1 h2] at hesc
      exact absurd hesc (by simp)
    | ok h => exact ⟨h, env2, construct_returned H config h1 h2⟩

theorem construct_first_call {σ : Type} (H : Host σ) (env : σ) (config : JSVal) :
    ∃ rest, (construct H env config).effects =
      .initializeApp config (H.initializeApp config env).1 :: rest := by
  rcases h1 : H.initializeApp config env with ⟨r1, env1⟩
  cases r1 with
  | error e =>
    rw [construct_init_threw H config h1]
    exact ⟨_, rfl⟩
  | ok u =>
    rcases h2 : H.messaging env1 with ⟨r2, env2⟩
    cases r2 with
    | error e =>
      rw [construct_messaging_threw H config h1 h2]
      exact ⟨_, rfl⟩
    | ok h =>
      rw [construct_returned H config h1 h2]
      exact ⟨_, rfl⟩

theorem onMessage_cases {σ : Type} (H : Host σ) (w : Worker σ) (event : MessageEvent) :
    (∃ env1, (onMessage H w event).worker = ⟨w.messagingInstance, env1⟩ ∧
        constructed (onMessage H w event).effects = []) ∨
    (w.messagingInstance = none ∧ ∃ h env1, (onMessage H w event).worker = ⟨some h, env1⟩ ∧
        constructed (onMessage H w event).effects = [h]) := by
  cases event with
  | mk data =>
    cases hw : w.messagingInstance with
    | some h =>
      rw [onMessage_already H w _ hw]
      exact Or.inl ⟨w.env, by rw [← hw], rfl⟩
    | none =>
      by_cases hty : field data "type" = .str initTag
      · rw [onMessage_init H w hty hw]
        rcases construct_cases H w.env (field data "config") with
          ⟨env1, h1, h2, _⟩ | ⟨h, env1, h1, h2, _⟩
        · exact Or.inl ⟨env1, h1, h2⟩
        · exact Or.inr ⟨rfl, h, env1, h1, h2⟩
      · rw [onMessage_ignored H w hty]
        exact Or.inl ⟨w.env, by rw [← hw], rfl⟩

/-! ## Sequences of events -/

theorem constructed_append (a b : List Effect) :
    constructed (a ++ b) = constructed a ++ constructed b := by
  induction a with
  | nil => rfl
  | cons x xs ih =>
    cases x with
    | messaging r => cases r <;> simp [constructed, ih]
    | _ => simp [constructed, ih]

theorem libraryCalls_append (a b : List Effect) :
    libraryCalls (a ++ b) = libraryCalls a + libraryCalls b := by
  induction a with
  | nil => simp [libraryCalls]
  | cons x xs ih =>
    cases x <;> simp [libraryCalls, ih] <;> omega

theorem dispatch_already {σ : Type} (H : Host σ) (w : Worker σ) (ev : Event) {h : Handle}
    (hw : w.messagingInstance = some h) :
    (dispatch H w ev).worker.messagingInstance = some h ∧
      libraryCalls (dispatch H w ev).effects = 0 ∧
      constructed (dispatch H w ev).effects = [] := by
  cases ev with
  | message e => simp [dispatch, onMessage_already H w e hw, hw, libraryCalls, constructed]
  | push e =>
    obtain ⟨env1, effs, h1, h2, h3⟩ := onPush_cases H w e
    simp [dispatch, h1, hw, h2, h3]

theorem run_already {σ : Type} (H : Host σ) (evs : List Event) (w : Worker σ) {h : Handle}
    (hw : w.messagingInstance = some h) :
    (run H w evs).worker.messagingInstance = some h ∧
      libraryCalls (run H w evs).effects = 0 ∧
      constructed (run H w evs).effects = [] := by
  induction evs generalizing w with
  | nil => simp [run, hw, libraryCalls, constructed]
  | cons ev rest ih =>
    obtain ⟨h1, h2, h3⟩ := dispatch_already H w ev hw
    obtain ⟨i1, i2, i3⟩ := ih (dispatch H w ev).worker h1
    simp [run, i1, libraryCalls_append, constructed_append, h2, h3, i2, i3]

theorem dispatch_cases {σ : Type} (H : Host σ) (w : Worker σ) (ev : Event) :
    ((dispatch H w ev).worker.messagingInstance = w.messagingInstance ∧
        constructed (dispatch H w ev).effects = []) ∨
    (w.messagingInstance = none ∧ ∃ h, (dispatch H w ev).worker.messagingInstance = some h ∧
        constructed (dispatch H w ev).effects = [h]) := by
  cases ev with
  | message e =>
    rcases onMessage_cases H w e with ⟨env1, h1, h2⟩ | ⟨hn, h, env1, h1, h2⟩
    · exact Or.inl ⟨by simp [dispatch, h1], by simp [dispatch, h2]⟩
    · exact Or.inr ⟨hn, h, by simp [dispatch, h1], by simp [dispatch, h2]⟩
  | push e =>
    obtain ⟨env1, effs, h1, h2, _⟩ := onPush_cases H w e
    exact Or.inl ⟨by simp [dispatch, h1], by simp [dispatch, h1, h2]⟩

theorem run_constructed_le_one {σ : Type} (H : Host σ) (evs : List Event) (w : Worker σ) :
    (constructed (run H w evs).effects).length ≤ 1 := by
  induction evs generalizing w with
  | nil => simp [run, constructed]
  | cons ev rest ih =>
    rcases dispatch_cases H w ev with ⟨_, h2⟩ | ⟨_, h, h1, h2⟩
    · have := ih (dispatch H w ev).worker
      simpa [run, constructed_append, h2] using this
    · obtain ⟨_, _, i3⟩ := run_already H rest (dispatch H w ev).worker h1
      simp [run, constructed_append, h2, i3]

/-! ## The push listener: claims -/

/-- C1, as stated, fails for the empty title: on the payload
`{"notification":{"title":"","body":"B"}}` the one notification requested has
the title `'새 알림'`, not `""`. -/
theorem push_empty_title_replaced :
    field (field emptyTitlePayload "notification") "title" = .str "" ∧
    field (field emptyTitlePayload "notification") "body" = .str "B" ∧
    requested (onPush steadyHost (fresh 0) (pushOf emptyTitlePayload)).effects =
      [(.str fallbackTitle, ⟨.str "B", .undefined, .undefined⟩)] ∧
    ¬ ∃ o : NotificationOptions,
      requested (onPush steadyHost (fresh 0) (pushOf emptyTitlePayload)).effects =
        [(.str "", o)] ∧ o.body = .str "B" := by
  refine ⟨rfl, rfl, rfl, ?_⟩
  rintro ⟨o, h, _⟩
  have h2 : requested (onPush steadyHost (fresh 0) (pushOf emptyTitlePayload)).effects =
      [(.str fallbackTitle, ⟨.str "B", .undefined, .undefined⟩)] := rfl
  rw [h2] at h
  simp [fallbackTitle] at h

/-- C1 (amended): for every non-empty string `T`, every string `B` and every
push event whose payload parses to an object with `notification.title = T` and
`notification.body = B`, the push handler requests exactly one notification,
with title `T` and `options.body` equal to `B`. -/
theorem push_title_body_passthrough {σ : Type} (H : Host σ) (w : Worker σ) (payload : JSVal)
    (T B : String)
    (hT : field (field payload "notification") "title" = .str T)
    (hB : field (field payload "notification") "body" = .str B)
    (hne : T ≠ "") :
    ∃ o : NotificationOptions,
      requested (onPush H w (pushOf payload)).effects = [(.str T, o)] ∧ o.body = .str B := by
  have hn : nullish payload = false := by
    apply @nullish_of_field_ne payload "notification"
    intro h
    rw [h] at hT
    simp [field] at hT
  refine ⟨specOptions payload, ?_, ?_⟩
  · have ht : specTitle payload = .str T := by
      simp [specTitle, hT, orElse_str _ _ hne]
    rw [← ht]
    exact requested_onPush H w (deriveNotification_eq hn)
  · simp [specOptions, hB, orElse_str_empty]

/-- Instance of C1 (amended) at the payload
`{"notification":{"title":"Hi","body":"there"},"data":{"k":"v"}}`. -/
theorem push_title_body_passthrough_witness :
    ∃ o : NotificationOptions,
      requested (onPush steadyHost (fresh 0) (pushOf hiPayload)).effects = [(.str "Hi", o)] ∧
        o.body = .str "there" :=
  push_title_body_passthrough steadyHost (fresh 0) hiPayload "Hi" "there" rfl rfl (by decide)

/-- C3, as stated, fails for the payload `null`: it is valid JSON and has no
`notification` field, but the read of `payload.notification` throws a
`TypeError`, which is caught and logged, and no display call is made. -/
theorem push_null_payload_no_title :
    hasField .null "notification" = false ∧
    (onPush steadyHost (fresh 0) (pushOf .null)).effects =
      [.consoleError pushErrorMessage .typeError] ∧
    requested (onPush steadyHost (fresh 0) (pushOf .null)).effects = [] ∧
    ¬ ∃ o : NotificationOptions,
      requested (onPush steadyHost (fresh 0) (pushOf .null)).effects =
        [(.str fallbackTitle, o)] := by
  refine ⟨rfl, rfl, rfl, ?_⟩
  rintro ⟨o, h⟩
  have h2 : requested (onPush steadyHost (fresh 0) (pushOf .null)).effects = [] := rfl
  rw [h2] at h
  simp at h

/-- C3 (amended): for every push event whose payload parses to a value other
than `null` and has no `notification` field, or whose `notification` has no
`title` field, the
push handler makes one display call and its title is the fixed fallback string
`'새 알림'`; when that call returns, this is the notification shown. -/
theorem push_missing_title_fallback {σ : Type} (H : Host σ) (w : Worker σ) (payload : JSVal)
    (hp : nullish payload = false)
    (h : hasField payload "notification" = false ∨
      hasField (field payload "notification") "title" = false) :
    ∃ o : NotificationOptions,
      requested (onPush H w (pushOf payload)).effects = [(.str fallbackTitle, o)] ∧
      ∀ p env1, H.showNotification (.str fallbackTitle) o w.env = (.ok p, env1) →
        shown (onPush H w (pushOf payload)).effects = [(.str fallbackTitle, o)] := by
  have ht : specTitle payload = .str fallbackTitle := by
    rcases h with h | h
    · simp only [specTitle, field_of_not_hasField h, field_undefined, orElse_undefined]
    · simp [specTitle, field_of_not_hasField h, orElse_undefined]
  have hd := deriveNotification_eq hp
  rw [ht] at hd
  exact ⟨specOptions payload, requested_onPush H w hd, fun p env1 hs => shown_onPush H w hd hs⟩

/-- Instance of C3 (amended) at the payload `{"data":{"k":"v"}}`. -/
theorem push_missing_title_fallback_witness :
    ∃ o : NotificationOptions,
      requested (onPush steadyHost (fresh 0) (pushOf dataOnlyPayload)).effects =
        [(.str fallbackTitle, o)] ∧
      ∀ p env1, steadyHost.showNotification (.str fallbackTitle) o (fresh 0).env = (.ok p, env1) →
        shown (onPush steadyHost (fresh 0) (pushOf dataOnlyPayload)).effects =
          [(.str fallbackTitle, o)] :=
  push_missing_title_fallback steadyHost (fresh 0) dataOnlyPayload rfl (Or.inl rfl)

/-- C4, as stated, fails for the payload `null`: it is valid JSON and has no
`notification` field, but the read of `payload.notification` throws a
`TypeError`, which is caught and logged, and no display call is made, so no
options with an empty `body` are passed. -/
theorem push_null_payload_no_body :
    hasField .null "notification" = false ∧
    (onPush steadyHost (fresh 0) (pushOf .null)).effects =
      [.consoleError pushErrorMessage .typeError] ∧
    requested (onPush steadyHost (fresh 0) (pushOf .null)).effects = [] ∧
    ¬ ∃ (t : JSVal) (o : NotificationOptions),
      requested (onPush steadyHost (fresh 0) (pushOf .null)).effects = [(t, o)] ∧
        o.body = .str "" := by
  refine ⟨rfl, rfl, rfl, ?_⟩
  rintro ⟨t, o, h, _⟩
  have h2 : requested (onPush steadyHost (fresh 0) (pushOf .null)).effects = [] := rfl
  rw [h2] at h
  simp at h

/-- C4 (amended): for every push event whose payload parses to a value other
than `null` and has no `notification` field, or whose `notification` has no
`body` field, the push handler makes one display call and its `options.body` is the empty string;
when that call returns, this is the notification shown. -/
theorem push_missing_body_empty {σ : Type} (H : Host σ) (w : Worker σ) (payload : JSVal)
    (hp : nullish payload = false)
    (h : hasField payload "notification" = false ∨
      hasField (field payload "notification") "body" = false) :
    ∃ (t : JSVal) (o : NotificationOptions),
      requested (onPush H w (pushOf payload)).effects = [(t, o)] ∧ o.body = .str "" ∧
      ∀ p env1, H.showNotification t o w.env = (.ok p, env1) →
        shown (onPush H w (pushOf payload)).effects = [(t, o)] := by
  have hb : (specOptions payload).body = .str "" := by
    rcases h with h | h
    · simp only [specOptions, field_of_not_hasField h, field_undefined, orElse_undefined]
    · simp [specOptions, field_of_not_hasField h, orElse_undefined]
  have hd := deriveNotification_eq hp
  exact ⟨specTitle payload, specOptions payload, requested_onPush H w hd, hb,
    fun p env1 hs => shown_onPush H w hd hs⟩

/-- Instance of C4 (amended) at the payload `{"data":{"k":"v"}}`. -/
theorem push_missing_body_empty_witness :
    ∃ (t : JSVal) (o : NotificationOptions),
      requested (onPush steadyHost (fresh 0) (pushOf dataOnlyPayload)).effects = [(t, o)] ∧
      o.body = .str "" ∧
      ∀ p env1, steadyHost.showNotification t o (fresh 0).env = (.ok p, env1) →
        shown (onPush steadyHost (fresh 0) (pushOf dataOnlyPayload)).effects = [(t, o)] :=
  push_missing_body_empty steadyHost (fresh 0) dataOnlyPayload rfl (Or.inl rfl)

/-- C5: for every push event with a payload, if `event.data.json()` throws, or
a step of the field derivation throws, or the display call throws, then no
notification is shown (either no display call is made, or the one made threw),
`event.waitUntil` is not called, exactly one entry is written with
`console.error` (the fixed message with the exception caught), and no exception
leaves the handler. -/
theorem push_failure_logged_not_shown {σ : Type} (H : Host σ) (w : Worker σ)
    (d : PushMessageData) (e : Thrown)
    (h : d.json = .error e ∨
      (∃ payload, d.json = .ok payload ∧ deriveNotification payload = .error e) ∨
      (∃ payload t o env1, d.json = .ok payload ∧ deriveNotification payload = .ok (t, o) ∧
        H.showNotification t o w.env = (.error e, env1))) :
    shown (onPush H w ⟨some d⟩).effects = [] ∧
    waited (onPush H w ⟨some d⟩).effects = [] ∧
    logged (onPush H w ⟨some d⟩).effects = [(pushErrorMessage, e)] ∧
    (onPush H w ⟨some d⟩).escaped = none ∧
    ((onPush H w ⟨some d⟩).effects = [.consoleError pushErrorMessage e] ∨
      ∃ t o, (onPush H w ⟨some d⟩).effects =
        [.showNotification t o (.error e), .consoleError pushErrorMessage e]) := by
  rcases h with h | ⟨payload, h, hd⟩ | ⟨payload, t, o, env1, h, hd, hs⟩
  · have he : (⟨some d⟩ : PushEvent) = ⟨some ⟨.error e⟩⟩ := by
      cases d with
      | mk json => simp_all
    rw [he, onPush_parse_threw]
    exact ⟨rfl, rfl, rfl, rfl, Or.inl rfl⟩
  · rw [pushEvent_eq_pushOf rfl h, onPush_derive_threw H w hd]
    exact ⟨rfl, rfl, rfl, rfl, Or.inl rfl⟩
  · rw [pushEvent_eq_pushOf rfl h, onPush_display_threw H w hd hs]
    exact ⟨rfl, rfl, rfl, rfl, Or.inr ⟨t, o, rfl⟩⟩

/-- Instances of C5: a payload that does not parse, the payload `null` (the
read of `payload.notification` throws), and a display call that throws. -/
theorem push_failure_logged_not_shown_witness :
    (shown (onPush steadyHost (fresh 0) ⟨some ⟨.error (.other "SyntaxError")⟩⟩).effects = [] ∧
      logged (onPush steadyHost (fresh 0) ⟨some ⟨.error (.other "SyntaxError")⟩⟩).effects =
        [(pushErrorMessage, .other "SyntaxError")] ∧
      (onPush steadyHost (fresh 0) ⟨some ⟨.error (.other "SyntaxError")⟩⟩).escaped = none) ∧
    (shown (onPush steadyHost (fresh 0) ⟨some ⟨.ok .null⟩⟩).effects = [] ∧
      logged (onPush steadyHost (fresh 0) ⟨some ⟨.ok .null⟩⟩).effects =
        [(pushErrorMessage, .typeError)] ∧
      (onPush steadyHost (fresh 0) ⟨some ⟨.ok .null⟩⟩).escaped = none) ∧
    (shown (onPush brokenHost (fresh 0) ⟨some ⟨.ok hiPayload⟩⟩).effects = [] ∧
      logged (onPush brokenHost (fresh 0) ⟨some ⟨.ok hiPayload⟩⟩).effects =
        [(pushErrorMessage, .other "display")] ∧
      (onPush brokenHost (fresh 0) ⟨some ⟨.ok hiPayload⟩⟩).escaped = none) :=
  have h1 := push_failure_logged_not_shown steadyHost (fresh 0)
    ⟨.error (.other "SyntaxError")⟩ _ (Or.inl rfl)
  have h2 := push_failure_logged_not_shown steadyHost (fresh 0) ⟨.ok .null⟩ _
    (Or.inr (Or.inl ⟨.null, rfl, rfl⟩))
  have h3 := push_failure_logged_not_shown brokenHost (fresh 0) ⟨.ok hiPayload⟩ _
    (Or.inr (Or.inr ⟨hiPayload, .str "Hi",
      ⟨.str "there", .undefined, .obj [("k", .str "v")]⟩, 0, rfl, rfl, rfl⟩))
  ⟨⟨h1.1, h1.2.2.1, h1.2.2.2.1⟩, ⟨h2.1, h2.2.2.1, h2.2.2.2.1⟩, ⟨h3.1, h3.2.2.1, h3.2.2.2.1⟩⟩

/-- C6: on a push event that carries no data the push handler makes no call at
all (no display request, no `console.error`, no `event.waitUntil`), leaves the
worker as it was, and no exception leaves it. -/
theorem push_without_data_noop {σ : Type} (H : Host σ) (w : Worker σ) :
    (onPush H w ⟨none⟩).effects = [] ∧
    requested (onPush H w ⟨none⟩).effects = [] ∧
    logged (onPush H w ⟨none⟩).effects = [] ∧
    waited (onPush H w ⟨none⟩).effects = [] ∧
    (onPush H w ⟨none⟩).escaped = none ∧
    (onPush H w ⟨none⟩).worker = w := by
  rw [onPush_no_data]
  exact ⟨rfl, rfl, rfl, rfl, rfl, rfl⟩

/-- C7: for every push event whose payload parses to a value other than `null`
(in particular to an object), the one display call is passed options whose
`data` is `payload.data` (`undefined` when absent) and whose `icon` is
`payload.notification.icon` (`undefined` when absent); and the payload
`{"notification":{"title":"Hi","body":"there"},"data":{"k":"v"}}` yields the
call `showNotification('Hi', {body: 'there', icon: undefined, data: {k: 'v'}})`. -/
theorem push_icon_data_passthrough {σ : Type} (H : Host σ) (w : Worker σ) :
    (∀ payload : JSVal, nullish payload = false →
      ∃ (t : JSVal) (o : NotificationOptions),
        requested (onPush H w (pushOf payload)).effects = [(t, o)] ∧
        o.data = field payload "data" ∧
        o.icon = field (field payload "notification") "icon") ∧
    requested (onPush H w (pushOf hiPayload)).effects =
      [(.str "Hi", ⟨.str "there", .undefined, .obj [("k", .str "v")]⟩)] := by
  refine ⟨fun payload hp => ?_, ?_⟩
  · exact ⟨specTitle payload, specOptions payload,
      requested_onPush H w (deriveNotification_eq hp), rfl, rfl⟩
  · exact @requested_onPush σ H w hiPayload _ _ rfl

/-- Instance of C7 at the payload `{"data":{"k":"v"}}`: `data` is passed on and
`icon` is `undefined`. -/
theorem push_icon_data_passthrough_witness :
    ∃ (t : JSVal) (o : NotificationOptions),
      requested (onPush steadyHost (fresh 0) (pushOf dataOnlyPayload)).effects = [(t, o)] ∧
      o.data = field dataOnlyPayload "data" ∧
      o.icon = field (field dataOnlyPayload "notification") "icon" :=
  (push_icon_data_passthrough steadyHost (fresh 0)).1 dataOnlyPayload rfl

/-- C10: for every push event whose payload parses and whose fields derive
without error, the push handler calls `showNotification` exactly once and
passes the promise that call returns to `event.waitUntil`, exactly once; and
whenever `event.waitUntil` is called at all, the event is of that kind and the
display call returned the promise passed. -/
theorem push_waits_on_display {σ : Type} (H : Host σ) (w : Worker σ) :
    (∀ (payload t : JSVal) (o : NotificationOptions),
      deriveNotification payload = .ok (t, o) →
        requested (onPush H w (pushOf payload)).effects = [(t, o)] ∧
        ∀ p env1, H.showNotification t o w.env = (.ok p, env1) →
          waited (onPush H w (pushOf payload)).effects = [p]) ∧
    (∀ event : PushEvent, waited (onPush H w event).effects ≠ [] →
      ∃ payload t o p env1, event = pushOf payload ∧
        deriveNotification payload = .ok (t, o) ∧
        H.showNotification t o w.env = (.ok p, env1) ∧
        waited (onPush H w event).effects = [p]) := by
  refine ⟨fun payload t o hd => ⟨requested_onPush H w hd, fun p env1 hs => ?_⟩,
    fun event h => waited_onPush_only H w event h⟩
  rw [onPush_returned H w hd hs]
  rfl

/-- Instance of C10 at the payload
`{"notification":{"title":"Hi","body":"there"},"data":{"k":"v"}}` on a host
whose display call returns the promise numbered 0. -/
theorem push_waits_on_display_witness :
    requested (onPush steadyHost (fresh 0) (pushOf hiPayload)).effects =
      [(.str "Hi", ⟨.str "there", .undefined, .obj [("k", .str "v")]⟩)] ∧
    waited (onPush steadyHost (fresh 0) (pushOf hiPayload)).effects = [⟨0⟩] :=
  ⟨((push_waits_on_display steadyHost (fresh 0)).1 hiPayload _ _ rfl).1,
    ((push_waits_on_display steadyHost (fresh 0)).1 hiPayload _ _ rfl).2 ⟨0⟩ 1 rfl⟩

/-! ## The message listener: claims -/

/-- C2, as stated, fails when construction throws: on a host whose
`firebase.messaging()` throws, two initialization messages in succession to a
fresh worker complete no construction at all, and the second message is not
ignored: it calls `firebase.initializeApp` and `firebase.messaging` again. -/
theorem two_inits_no_construction :
    constructed (run brokenHost (fresh 0)
      [.message (initMessage sampleConfig), .message (initMessage sampleConfig)]).effects = [] ∧
    (constructed (run brokenHost (fresh 0)
      [.message (initMessage sampleConfig), .message (initMessage sampleConfig)]).effects).length
      ≠ 1 ∧
    libraryCalls (onMessage brokenHost
      (onMessage brokenHost (fresh 0) (initMessage sampleConfig)).worker
      (initMessage sampleConfig)).effects = 2 ∧
    (run brokenHost (fresh 0)
      [.message (initMessage sampleConfig), .message (initMessage sampleConfig)]).uncaught =
      [.other "messaging/missing-app-config-values",
        .other "messaging/missing-app-config-values"] :=
  ⟨rfl, by decide, rfl, rfl⟩

/-- C2 (amended): for every sequence of message and push events delivered to
one worker instance, at most one construction of the messaging client
completes, and once the handle is set no later event calls
`firebase.initializeApp` or `firebase.messaging` or changes the handle; in
particular, when the first of two initialization messages delivered in
succession to a fresh worker is handled without an exception, the two result
in exactly one construction (one call of `firebase.initializeApp` followed by
one of `firebase.messaging`, nothing else) and the second message does nothing:
the handle stays as the first left it. -/
theorem construction_at_most_once {σ : Type} (H : Host σ) (env : σ) :
    (∀ evs : List Event, (constructed (run H (fresh env) evs).effects).length ≤ 1) ∧
    (∀ (w : Worker σ) (h : Handle) (evs : List Event), w.messagingInstance = some h →
      libraryCalls (run H w evs).effects = 0 ∧
      (run H w evs).worker.messagingInstance = some h) ∧
    (∀ c1 c2 : JSVal, (onMessage H (fresh env) (initMessage c1)).escaped = none →
      ∃ h : Handle,
        (run H (fresh env) [.message (initMessage c1), .message (initMessage c2)]).effects =
          [.initializeApp c1 (.ok ()), .messaging (.ok h)] ∧
        (constructed (run H (fresh env)
          [.message (initMessage c1), .message (initMessage c2)]).effects).length = 1 ∧
        (onMessage H (fresh env) (initMessage c1)).worker.messagingInstance = some h ∧
        onMessage H (onMessage H (fresh env) (initMessage c1)).worker (initMessage c2) =
          ⟨(onMessage H (fresh env) (initMessage c1)).worker, [], none⟩) := by
  refine ⟨fun evs => run_constructed_le_one H evs (fresh env), fun w h evs hw => ?_,
    fun c1 c2 hesc => ?_⟩
  · obtain ⟨h1, h2, _⟩ := run_already H evs w hw
    exact ⟨h2, h1⟩
  · have hi : onMessage H (fresh env) (initMessage c1) = construct H env c1 :=
      @onMessage_init σ H (fresh env) (.obj [("type", .str initTag), ("config", c1)]) rfl rfl
    rw [hi] at hesc
    obtain ⟨h, env2, hc⟩ := construct_of_no_escape H env c1 hesc
    have h1 : onMessage H (fresh env) (initMessage c1) =
        ⟨⟨some h, env2⟩, [.initializeApp c1 (.ok ()), .messaging (.ok h)], none⟩ := by
      rw [hi, hc]
    have h2 : onMessage H ⟨some h, env2⟩ (initMessage c2) = ⟨⟨some h, env2⟩, [], none⟩ :=
      @onMessage_already σ H _ _ h rfl
    refine ⟨h, ?_, ?_, ?_, ?_⟩
    · simp [run, dispatch, h1, h2]
    · simp [run, dispatch, h1, h2, constructed]
    · rw [h1]
    · rw [h1]
      exact h2

/-- Instance of C2 (amended) on a host whose calls all return: a push event
between two initialization messages, a worker that already holds a handle, and
two initialization messages in succession. -/
theorem construction_at_most_once_witness :
    (constructed (run steadyHost (fresh 0)
      [.message (initMessage sampleConfig), .push (pushOf hiPayload),
        .message (initMessage sampleConfig)]).effects).length ≤ 1 ∧
    (libraryCalls (run steadyHost ⟨some ⟨7⟩, 0⟩ [.message (initMessage sampleConfig)]).effects = 0 ∧
      (run steadyHost ⟨some ⟨7⟩, 0⟩
        [.message (initMessage sampleConfig)]).worker.messagingInstance = some ⟨7⟩) ∧
    (∃ h : Handle,
      (run steadyHost (fresh 0)
        [.message (initMessage sampleConfig), .message (initMessage sampleConfig)]).effects =
        [.initializeApp sampleConfig (.ok ()), .messaging (.ok h)] ∧
      (constructed (run steadyHost (fresh 0)
        [.message (initMessage sampleConfig), .message (initMessage sampleConfig)]).effects).length
        = 1 ∧
      (onMessage steadyHost (fresh 0) (initMessage sampleConfig)).worker.messagingInstance =
        some h ∧
      onMessage steadyHost (onMessage steadyHost (fresh 0) (initMessage sampleConfig)).worker
          (initMessage sampleConfig) =
        ⟨(onMessage steadyHost (fresh 0) (initMessage sampleConfig)).worker, [], none⟩) :=
  ⟨(construction_at_most_once steadyHost 0).1 _,
    (construction_at_most_once steadyHost 0).2.1 ⟨some ⟨7⟩, 0⟩ ⟨7⟩ _ rfl,
    (construction_at_most_once steadyHost 0).2.2 sampleConfig sampleConfig rfl⟩

/-- C8: for every message event whose data is absent (`undefined` or `null`)
or whose `data.type` is not exactly `'INIT_FIREBASE_MESSAGING'`, the
configuration listener makes no call (neither `firebase.initializeApp` nor
`firebase.messaging`), leaves the worker, handle included, exactly as it was,
and raises no exception. -/
theorem message_other_type_ignored {σ : Type} (H : Host σ) (w : Worker σ) (data : JSVal)
    (h : data = .undefined ∨ data = .null ∨ field data "type" ≠ .str initTag) :
    (onMessage H w ⟨data⟩).effects = [] ∧
    libraryCalls (onMessage H w ⟨data⟩).effects = 0 ∧
    (onMessage H w ⟨data⟩).worker = w ∧
    (onMessage H w ⟨data⟩).escaped = none := by
  have hne : field data "type" ≠ .str initTag := by
    rcases h with h | h | h
    · rw [h]
      simp [field]
    · rw [h]
      simp [field]
    · exact h
  rw [onMessage_ignored H w hne]
  exact ⟨rfl, rfl, rfl, rfl⟩

/-- Instances of C8: a message without data, and the message
`{ type: 'PING', config: { apiKey: "x" } }` sent to a worker that holds a
handle. -/
theorem message_other_type_ignored_witness :
    ((onMessage steadyHost (fresh 0) ⟨.null⟩).effects = [] ∧
      libraryCalls (onMessage steadyHost (fresh 0) ⟨.null⟩).effects = 0 ∧
      (onMessage steadyHost (fresh 0) ⟨.null⟩).worker = fresh 0 ∧
      (onMessage steadyHost (fresh 0) ⟨.null⟩).escaped = none) ∧
    ((onMessage steadyHost ⟨some ⟨7⟩, 0⟩
        ⟨.obj [("type", .str "PING"), ("config", sampleConfig)]⟩).effects = [] ∧
      libraryCalls (onMessage steadyHost ⟨some ⟨7⟩, 0⟩
        ⟨.obj [("type", .str "PING"), ("config", sampleConfig)]⟩).effects = 0 ∧
      (onMessage steadyHost ⟨some ⟨7⟩, 0⟩
        ⟨.obj [("type", .str "PING"), ("config", sampleConfig)]⟩).worker = ⟨some ⟨7⟩, 0⟩ ∧
      (onMessage steadyHost ⟨some ⟨7⟩, 0⟩
        ⟨.obj [("type", .str "PING"), ("config", sampleConfig)]⟩).escaped = none) :=
  ⟨message_other_type_ignored steadyHost (fresh 0) .null (Or.inr (Or.inl rfl)),
    message_other_type_ignored steadyHost ⟨some ⟨7⟩, 0⟩
      (.obj [("type", .str "PING"), ("config", sampleConfig)])
      (Or.inr (Or.inr (by simp [field, initTag])))⟩

/-- C9: for every initialization message received while the handle is unset,
if `firebase.initializeApp` throws on the supplied config, or it returns and
`firebase.messaging` throws, then that exception leaves the listener, the
handle stays unset, and a later initialization message attempts construction
again: it calls `firebase.initializeApp` with its own config. -/
theorem construction_failure_propagates {σ : Type} (H : Host σ) (w : Worker σ) (data : JSVal)
    (e : Thrown)
    (hw : w.messagingInstance = none)
    (hty : field data "type" = .str initTag)
    (hthrow : (H.initializeApp (field data "config") w.env).1 = .error e ∨
      ((H.initializeApp (field data "config") w.env).1 = .ok () ∧
        (H.messaging (H.initializeApp (field data "config") w.env).2).1 = .error e)) :
    (onMessage H w ⟨data⟩).escaped = some e ∧
    (onMessage H w ⟨data⟩).worker.messagingInstance = none ∧
    ∀ data2 : JSVal, field data2 "type" = .str initTag →
      ∃ rest, (onMessage H (onMessage H w ⟨data⟩).worker ⟨data2⟩).effects =
        .initializeApp (field data2 "config")
          (H.initializeApp (field data2 "config") (onMessage H w ⟨data⟩).worker.env).1 :: rest := by
  have hi := onMessage_init H w hty hw
  have key : (construct H w.env (field data "config")).escaped = some e ∧
      (construct H w.env (field data "config")).worker.messagingInstance = none := by
    rcases h1 : H.initializeApp (field data "config") w.env with ⟨r1, env1⟩
    rw [h1] at hthrow
    rcases hthrow with ht | ⟨ht, hm⟩
    · simp only at ht
      subst ht
      rw [construct_init_threw H _ h1]
      exact ⟨rfl, rfl⟩
    · simp only at ht hm
      subst ht
      rcases h2 : H.messaging env1 with ⟨r2, env2⟩
      rw [h2] at hm
      simp only at hm
      subst hm
      rw [construct_messaging_threw H _ h1 h2]
      exact ⟨rfl, rfl⟩
  rw [hi]
  refine ⟨key.1, key.2, fun data2 hty2 => ?_⟩
  rw [onMessage_init H _ hty2 key.2]
  exact construct_first_call H _ _

/-- Instance of C9 on a host whose `firebase.messaging()` throws. -/
theorem construction_failure_propagates_witness :
    (onMessage brokenHost (fresh 0) (initMessage sampleConfig)).escaped =
      some (.other "messaging/missing-app-config-values") ∧
    (onMessage brokenHost (fresh 0) (initMessage sampleConfig)).worker.messagingInstance = none ∧
    ∀ data2 : JSVal, field data2 "type" = .str initTag →
      ∃ rest, (onMessage brokenHost
          (onMessage brokenHost (fresh 0) (initMessage sampleConfig)).worker ⟨data2⟩).effects =
        .initializeApp (field data2 "config")
          (brokenHost.initializeApp (field data2 "config")
            (onMessage brokenHost (fresh 0) (initMessage sampleConfig)).worker.env).1 :: rest :=
  construction_failure_propagates brokenHost (fresh 0)
    (.obj [("type", .str initTag), ("config", sampleConfig)])
    (.other "messaging/missing-app-config-values") rfl rfl (Or.inr ⟨rfl, rfl⟩)

end FirebaseMessagingSw
